import Mathlib

/-!
Verification of the header store and verifier of the ElectrumG (Bitcoin Gold)
light client, `lib/blockchain.py` together with the network constants of
`lib/constants.py`.

Conventions of the shallow embedding:
* Python integers are `Int` (or `Nat` where the source value is provably
  non-negative); Python `//` is `Int.fdiv` and `%` is `Int.emod`, matching
  Python's floor semantics.
* Byte strings are `List Nat` (one entry per byte).  The source passes most
  hashes around as hex strings in display order (`hash_encode` of the wire
  bytes); a hex string is represented by its byte list, so `rev_hex` and
  `hash_encode` both become `List.reverse`.
* Bit masks of the source are modelled arithmetically: `x & 0x007fffff` is
  `x % 2 ^ 23`, `x >> k` is `x / 2 ^ (k)` on naturals, `x << k` is
  `x * 2 ^ k`, and `c & 0x00800000 != 0` is `c / 2 ^ 23 % 2 = 1`.
* The double-SHA256 primitive `Hash` and the Equihash check `is_gbp_valid`
  are external pure functions and appear as function parameters.
* `lib/bitcoin.py` and `lib/equihash.py` are not part of the sources at
  hand; the handful of small helpers imported from them
  (`is_post_btg_fork`, `is_post_equihash_fork`, `get_header_size`,
  `get_equihash_params`, `var_int_read`, `difficulty_adjustment_interval`,
  `needs_retarget`, the endianness helpers) are modelled from the spec and
  are marked `Modelled from the spec:` in their doc comments.
-/

/-- Little-endian byte list of length `n` holding `v % 256 ^ n`.
Modelled from the spec: byte-level view of `int_to_hex(v, n)` of the missing
`lib/bitcoin.py` (all integers little-endian). -/
def leBytes (v : Nat) : Nat → List Nat
  | 0 => []
  | n + 1 => v % 256 :: leBytes (v / 256) n

/-- Value of a little-endian byte list.
Modelled from the spec: byte-level view of `hex_to_int` of the missing
`lib/bitcoin.py` (little-endian; the empty string decodes to `0`). -/
def leval : List Nat → Nat
  | [] => 0
  | b :: t => b + 256 * leval t

/-- Value of a big-endian byte list; `int('0x' + hexstring, 16)` on the hex
string whose bytes are the list. -/
def beval (l : List Nat) : Nat :=
  l.foldl (fun a b => a * 256 + b) 0

/-- One hex digit. -/
def hexDigit (c : Char) : Option Nat :=
  if '0' ≤ c ∧ c ≤ '9' then some (c.toNat - '0'.toNat)
  else if 'a' ≤ c ∧ c ≤ 'f' then some (c.toNat - 'a'.toNat + 10)
  else if 'A' ≤ c ∧ c ≤ 'F' then some (c.toNat - 'A'.toNat + 10)
  else none

/-- Hex decoding of a character list to bytes; `none` on a malformed string.
Modelled from the spec: `bfh` of the missing `lib/bitcoin.py`. -/
def hexDecode : List Char → Option (List Nat)
  | [] => some []
  | [_] => none
  | c₁ :: c₂ :: t =>
    match hexDigit c₁, hexDigit c₂, hexDecode t with
    | some h, some l, some rest => some ((16 * h + l) :: rest)
    | _, _, _ => none

/-- A block header as the dictionaries of `lib/blockchain.py` carry it:
integers for the little-endian fields, display-order byte lists for the
reversed hex-string fields. -/
structure Header where
  version : Nat
  prev_block_hash : List Nat
  merkle_root : List Nat
  block_height : Int
  reserved : List Nat
  timestamp : Nat
  bits : Nat
  nonce : List Nat
  solution : List Nat
deriving Repr, DecidableEq

/-- The per-network constants of `lib/constants.py` (class `BitcoinGoldBase`
and its three subclasses).  `EQUIHASH_FORK_HEIGHT` is referenced by
`lib/blockchain.py` but defined nowhere in the sources at hand; it is
modelled from the spec as a field (the spec's §4.E treats the Equihash
parameter change as an optional second post-fork regime). -/
structure BTGNet where
  TESTNET : Bool
  REGTEST : Bool
  HEADER_SIZE : Int
  HEADER_SIZE_LEGACY : Int
  EQUIHASH_N : Nat
  EQUIHASH_K : Nat
  POW_TARGET_SPACING : Int
  DIGI_AVERAGING_WINDOW : Int
  LWMA_AVERAGING_WINDOW : Int
  LWMA_ADJUST_WEIGHT : Int
  CHUNK_SIZE : Int
  GENESIS : List Nat
  BTG_HEIGHT : Int
  LWMA_HEIGHT : Int
  PREMINE_SIZE : Int
  POW_LIMIT : Int
  POW_LIMIT_START : Int
  POW_LIMIT_LEGACY : Int
  EQUIHASH_FORK_HEIGHT : Int

/-- `BitcoinGoldMainnet` of `lib/constants.py`.  `LWMA_HEIGHT` is
`sys.maxsize`; `EQUIHASH_FORK_HEIGHT` is modelled from the spec as a height
never reached (mainnet has a single post-fork header size in the sources at
hand). -/
def mainnet : BTGNet where
  TESTNET := false
  REGTEST := false
  HEADER_SIZE := 1487
  HEADER_SIZE_LEGACY := 141
  EQUIHASH_N := 200
  EQUIHASH_K := 9
  POW_TARGET_SPACING := 600
  DIGI_AVERAGING_WINDOW := 30
  LWMA_AVERAGING_WINDOW := 45
  LWMA_ADJUST_WEIGHT := 13632
  CHUNK_SIZE := 252
  GENESIS :=
    (hexDecode "000000000019d6689c085ae165831e934ff763ae46a2a6c172b3f1b60a8ce26f".toList).getD []
  BTG_HEIGHT := 491407
  LWMA_HEIGHT := 9223372036854775807
  PREMINE_SIZE := 8000
  POW_LIMIT := 0x0007ffffffff0000000000000000000000000000000000000000000000000000
  POW_LIMIT_START := 0x0000000fffff0000000000000000000000000000000000000000000000000000
  POW_LIMIT_LEGACY := 0x00000000ffff0000000000000000000000000000000000000000000000000000
  EQUIHASH_FORK_HEIGHT := 9223372036854775807

/-- `BitcoinGoldTestnet` of `lib/constants.py`. -/
def testnet : BTGNet where
  TESTNET := true
  REGTEST := false
  HEADER_SIZE := 1487
  HEADER_SIZE_LEGACY := 141
  EQUIHASH_N := 200
  EQUIHASH_K := 9
  POW_TARGET_SPACING := 600
  DIGI_AVERAGING_WINDOW := 30
  LWMA_AVERAGING_WINDOW := 45
  LWMA_ADJUST_WEIGHT := 13632
  CHUNK_SIZE := 252
  GENESIS :=
    (hexDecode "00000000e0781ebe24b91eedc293adfea2f557b53ec379e78959de3853e6f9f6".toList).getD []
  BTG_HEIGHT := 1
  LWMA_HEIGHT := -1
  PREMINE_SIZE := 50
  POW_LIMIT := 0x0007ffffffffffffffffffffffffffffffffffffffffffffffffffffffffffff
  POW_LIMIT_START := 0x0007ffffffffffffffffffffffffffffffffffffffffffffffffffffffffffff
  POW_LIMIT_LEGACY := 0x00000000ffffffffffffffffffffffffffffffffffffffffffffffffffffffff
  EQUIHASH_FORK_HEIGHT := 9223372036854775807

/-- `BitcoinGoldRegtest` of `lib/constants.py`. -/
def regtest : BTGNet where
  TESTNET := false
  REGTEST := true
  HEADER_SIZE := 177
  HEADER_SIZE_LEGACY := 141
  EQUIHASH_N := 48
  EQUIHASH_K := 5
  POW_TARGET_SPACING := 600
  DIGI_AVERAGING_WINDOW := 30
  LWMA_AVERAGING_WINDOW := 45
  LWMA_ADJUST_WEIGHT := 13632
  CHUNK_SIZE := 252
  GENESIS :=
    (hexDecode "0f9188f13cb7b2c71f2a335e3a4fc328bf5beb436012afca590b1a11466e2206".toList).getD []
  BTG_HEIGHT := 2000
  LWMA_HEIGHT := -1
  PREMINE_SIZE := 10
  POW_LIMIT := 0x7fffffffffffffffffffffffffffffffffffffffffffffffffffffffffffffff
  POW_LIMIT_START := 0x7fffffffffffffffffffffffffffffffffffffffffffffffffffffffffffffff
  POW_LIMIT_LEGACY := 0x7fffffffffffffffffffffffffffffffffffffffffffffffffffffffffffffff
  EQUIHASH_FORK_HEIGHT := 9223372036854775807

/-- Modelled from the spec: `is_post_btg_fork` of the missing
`lib/bitcoin.py` — a height is post-fork exactly when it is at or above
`BTG_HEIGHT` (spec §6: legacy format below `BTG_HEIGHT`, post-fork format at
or above). -/
def is_post_btg_fork (net : BTGNet) (height : Int) : Bool :=
  net.BTG_HEIGHT ≤ height

/-- Modelled from the spec: `is_post_equihash_fork` of the missing
`lib/bitcoin.py` — at or above `EQUIHASH_FORK_HEIGHT`. -/
def is_post_equihash_fork (net : BTGNet) (height : Int) : Bool :=
  net.EQUIHASH_FORK_HEIGHT ≤ height

/-- Modelled from the spec: `get_header_size` of the missing
`lib/bitcoin.py` — the on-disk row size is `HEADER_SIZE_LEGACY` below the
BTG fork and `HEADER_SIZE` at or above it. -/
def get_header_size (net : BTGNet) (height : Int) : Int :=
  if is_post_btg_fork net height then net.HEADER_SIZE else net.HEADER_SIZE_LEGACY

/-- Modelled from the spec: `difficulty_adjustment_interval` of the missing
`lib/bitcoin.py`; one 2016-block window (spec §3, `CHECKPOINTS`). -/
def difficulty_adjustment_interval : Int := 2016

/-- Modelled from the spec: `needs_retarget` of the missing
`lib/bitcoin.py`; spec §4.D, a height needs a retarget when
`h % 2016 == 0`. -/
def needs_retarget (height : Int) : Bool :=
  height.emod difficulty_adjustment_interval = 0

/-- Modelled from the spec: `var_int_read(buf, 0)` of the missing
`lib/bitcoin.py` — Bitcoin varint; returns `(offset just past the length
prefix, decoded length)`, `none` when the buffer is too short. -/
def var_int_read (s : List Nat) : Option (Nat × Nat) :=
  match s with
  | [] => none
  | b :: t =>
    if b < 0xfd then some (1, b)
    else if b = 0xfd then
      if 2 ≤ t.length then some (3, leval (t.take 2)) else none
    else if b = 0xfe then
      if 4 ≤ t.length then some (5, leval (t.take 4)) else none
    else
      if 8 ≤ t.length then some (9, leval (t.take 8)) else none

/-- `serialize_header(header, legacy)` of `lib/blockchain.py`, at the byte
level (the source emits the hex string of exactly these bytes).
`rev_hex(header.get('nonce'))[:8]` keeps the first four bytes of the
reversed nonce. -/
def serialize_header (header : Header) (legacy : Bool) : List Nat :=
  leBytes header.version 4
    ++ header.prev_block_hash.reverse
    ++ header.merkle_root.reverse
    ++ (if legacy then [] else
          leBytes header.block_height.toNat 4 ++ header.reserved.reverse)
    ++ leBytes header.timestamp 4
    ++ leBytes header.bits 4
    ++ (if legacy then header.nonce.reverse.take 4
        else header.nonce.reverse ++ header.solution.reverse)

/-- `deserialize_header(header, height)` of `lib/blockchain.py`.  The source
raises on an empty buffer (`if not header`), hence the `Option`; otherwise
it always parses the single unified layout, clamping slices that run past
the end the way Python slicing does. -/
def deserialize_header (s : List Nat) (height : Int) : Option Header :=
  if s = [] then none
  else some
    { block_height := height
      version := leval (s.take 4)
      prev_block_hash := ((s.drop 4).take 32).reverse
      merkle_root := ((s.drop 36).take 32).reverse
      reserved := ((s.drop 72).take 28).reverse
      timestamp := leval ((s.drop 100).take 4)
      bits := leval ((s.drop 104).take 4)
      nonce := ((s.drop 108).take 32).reverse
      solution := (s.drop 140).reverse }

/-- `hash_header(header, height)` of `lib/blockchain.py`, for a present
header, as display-order bytes: `hash_encode(Hash(bfh(serialize_header(h,
not is_post_btg_fork(height)))))`, parametrised by the external double-SHA256
primitive `hashPrim`. -/
def hash_header (net : BTGNet) (hashPrim : List Nat → List Nat)
    (header : Header) (height : Int) : List Nat :=
  (hashPrim (serialize_header header (!is_post_btg_fork net height))).reverse

/-- `hash_header` on an optional header: a `None` header hashes to
`'0' * 64` (32 zero bytes). -/
def hash_header_opt (net : BTGNet) (hashPrim : List Nat → List Nat)
    (header : Option Header) (height : Int) : List Nat :=
  match header with
  | none => List.replicate 32 0
  | some h => hash_header net hashPrim h height

/-- `Blockchain.bits_to_target` of `lib/blockchain.py`.
`bits >> 24` is `bits / 2 ^ 24`; `bits & 0x007fffff` is `bits % 2 ^ 23`. -/
def bits_to_target (bits : Nat) : Nat :=
  let size := bits / 2 ^ 24
  let word := bits % 2 ^ 23
  if size ≤ 3 then word / 2 ^ (8 * (3 - size))
  else word * 2 ^ (8 * (size - 3))

/-- `Blockchain.target_to_bits` of `lib/blockchain.py`.
`target.bit_length()` is `Nat.size`; the `c & 0x00800000` test is
`c / 2 ^ 23 % 2 = 1`; the final `c |= nsize << 24` is `nsize * 2 ^ 24 + c`
(the source asserts `c` fits below bit 23 at that point). -/
def target_to_bits (target : Nat) : Nat :=
  let nsize := (Nat.size target + 7) / 8
  let c := if nsize ≤ 3 then target * 2 ^ (8 * (3 - nsize))
           else target / 2 ^ (8 * (nsize - 3))
  let c' := if c / 2 ^ 23 % 2 = 1 then c / 2 ^ 8 else c
  let nsize' := if c / 2 ^ 23 % 2 = 1 then nsize + 1 else nsize
  nsize' * 2 ^ 24 + c'

/-- `Blockchain.get_offset(checkpoint, height)` of `lib/blockchain.py`:
byte offset of the row for `height` in the file of a branch starting at
`checkpoint`. -/
def get_offset (net : BTGNet) (checkpoint height : Int) : Int :=
  let prb : Int :=
    if ¬ is_post_btg_fork net height then height - checkpoint
    else if ¬ is_post_btg_fork net checkpoint then net.BTG_HEIGHT - checkpoint
    else 0
  let peb : Int :=
    if is_post_equihash_fork net height then
      height - max checkpoint net.EQUIHASH_FORK_HEIGHT
    else 0
  let pob : Int :=
    if is_post_btg_fork net height then
      height - max checkpoint net.BTG_HEIGHT - peb
    else 0
  prb * net.HEADER_SIZE_LEGACY
    + pob * get_header_size net net.BTG_HEIGHT
    + peb * get_header_size net net.EQUIHASH_FORK_HEIGHT

/-- `Blockchain.calculate_size(checkpoint, size_in_bytes)` of
`lib/blockchain.py`, translated branch for branch — including the
`size_in_bytes -= fork_byte_offset` line of the pre-fork branch exactly as
the source has it. -/
def calculate_size (net : BTGNet) (checkpoint₀ szBytes₀ : Int) : Int :=
  -- Pre-fork rows
  let step₁ : Int × Int × Int :=
    if ¬ is_post_btg_fork net checkpoint₀ then
      let fork_byte_offset := net.BTG_HEIGHT * net.HEADER_SIZE_LEGACY
      let offset := checkpoint₀ * net.HEADER_SIZE_LEGACY
      if offset + szBytes₀ > fork_byte_offset then
        ((fork_byte_offset - offset).fdiv net.HEADER_SIZE_LEGACY,
         net.BTG_HEIGHT, szBytes₀ - fork_byte_offset)
      else
        (szBytes₀.fdiv net.HEADER_SIZE_LEGACY, checkpoint₀, szBytes₀)
    else (0, checkpoint₀, szBytes₀)
  let prb := step₁.1
  let checkpoint₁ := step₁.2.1
  let szBytes₁ := step₁.2.2
  -- Post-fork rows
  let step₂ : Int × Int × Int :=
    if is_post_btg_fork net checkpoint₁ ∧ ¬ is_post_equihash_fork net checkpoint₁ then
      let pob₀ := szBytes₁.fdiv (get_header_size net net.BTG_HEIGHT)
      if is_post_equihash_fork net (checkpoint₁ + pob₀) then
        (net.EQUIHASH_FORK_HEIGHT - checkpoint₁, net.EQUIHASH_FORK_HEIGHT,
         szBytes₁ - (net.EQUIHASH_FORK_HEIGHT - checkpoint₁)
           * get_header_size net net.BTG_HEIGHT)
      else (pob₀, checkpoint₁, szBytes₁)
    else (0, checkpoint₁, szBytes₁)
  let pob := step₂.1
  let checkpoint₂ := step₂.2.1
  let szBytes₂ := step₂.2.2
  -- Equihash-fork rows
  let peb : Int :=
    if is_post_equihash_fork net checkpoint₂ then
      szBytes₂.fdiv (get_header_size net net.EQUIHASH_FORK_HEIGHT)
    else 0
  prb + pob + peb

/-- In-memory state of one `Blockchain` object: its identifying fields and
the byte content of its headers file. -/
structure BranchSt where
  checkpoint : Int
  parent_id : Option Int
  size : Int
  file : List Nat
deriving Repr, DecidableEq

/-- `Blockchain.height()`: `checkpoint + size - 1`. -/
def branch_height (b : BranchSt) : Int :=
  b.checkpoint + b.size - 1

/-- A byte list brought to length exactly `n`: truncated, or padded with
zero bytes the way a sparse `seek` past the end behaves. -/
def padTo (f : List Nat) (n : Nat) : List Nat :=
  f.take n ++ List.replicate (n - f.length) 0

/-- File content after `seek(offset); write(data)` without truncation. -/
def file_write (f : List Nat) (offset : Nat) (data : List Nat) : List Nat :=
  padTo f offset ++ data ++ f.drop (offset + data.length)

/-- `Blockchain.write(data, offset, truncate)` of `lib/blockchain.py`: the
odd-looking `get_offset(self.checkpoint, self.size())` comparison, the
conditional tail truncation, the write, and the `update_size()` recompute
from the file length via `calculate_size`. -/
def branch_write (net : BTGNet) (b : BranchSt) (data : List Nat)
    (offset : Int) (truncate : Bool) : BranchSt :=
  let current_offset := get_offset net b.checkpoint b.size
  let file' :=
    if truncate ∧ offset ≠ current_offset then padTo b.file offset.toNat ++ data
    else file_write b.file offset.toNat data
  { b with file := file',
           size := calculate_size net b.checkpoint (file'.length : Int) }

/-- `Blockchain.swap_with_parent` of `lib/blockchain.py` restricted to the
two branch objects involved (the global `blockchains` re-keying and file
renames move no header bytes).  Returns the updated `(self, parent)`
pair. -/
def swap_with_parent (net : BTGNet) (slf parent : BranchSt) :
    BranchSt × BranchSt :=
  match slf.parent_id with
  | none => (slf, parent)
  | some parent_id =>
    let parent_branch_size := branch_height parent - slf.checkpoint + 1
    if parent_branch_size ≥ slf.size then (slf, parent)
    else
      let checkpoint := slf.checkpoint
      let my_data := slf.file
      let offset := get_offset net parent.checkpoint checkpoint
      let parent_data := parent.file.drop offset.toNat
      let slf₁ := branch_write net slf parent_data 0 true
      let parent₁ := branch_write net parent my_data offset true
      let slf₂ : BranchSt :=
        { slf₁ with parent_id := parent.parent_id,
                    checkpoint := parent.checkpoint,
                    size := parent₁.size }
      let parent₂ : BranchSt :=
        { parent₁ with parent_id := some parent_id,
                       checkpoint := checkpoint,
                       size := parent_branch_size }
      (slf₂, parent₂)

/-- `Blockchain.save_chunk(height, chunk)` of `lib/blockchain.py`, with the
parent branch made explicit for the final `swap_with_parent` call.
`chunk[-delta:]` drops `-delta` leading bytes; `len(self.checkpoints)` is
`cpsLen`. -/
def save_chunk (net : BTGNet) (b parent : BranchSt) (cpsLen : Nat)
    (height : Int) (chunk : List Nat) : BranchSt × BranchSt :=
  let delta := height - b.checkpoint
  let chunk' := if delta < 0 then chunk.drop (-delta).toNat else chunk
  let height' := if delta < 0 then b.checkpoint else height
  let offset := get_offset net b.checkpoint height'
  let b₁ := branch_write net b chunk' offset
    (decide (height'.fdiv difficulty_adjustment_interval > (cpsLen : Int)))
  swap_with_parent net b₁ parent

/-- `Blockchain.read_header(height)` of `lib/blockchain.py` for a branch
whose file exists, with the parent branch's `read_header` as the
`parentRead` parameter.  The source raises on a short read and when
`deserialize_header` raises, hence the `Except`; an all-zero row reads as
`none`. -/
def read_header (net : BTGNet) (parentRead : Int → Except String (Option Header))
    (b : BranchSt) (height : Int) : Except String (Option Header) :=
  if height < 0 then .ok none
  else if height < b.checkpoint then parentRead height
  else if height > branch_height b then .ok none
  else
    let offset := get_offset net b.checkpoint height
    let header_size := (get_header_size net height).toNat
    let h := (b.file.drop offset.toNat).take header_size
    if h.length < header_size then
      .error "Expected to read a full header"
    else if h = List.replicate header_size 0 then .ok none
    else
      match deserialize_header h height with
      | none => .error "Invalid header"
      | some hd => .ok (some hd)

/-- `Blockchain.get_header(height, headers)` of `lib/blockchain.py`: the
in-flight `headers` dictionary first, then `read_header`, the latter
abstracted to a read-only lookup `readH`. -/
def get_header (readH : Int → Option Header)
    (headers : List (Int × Header)) (height : Int) : Option Header :=
  match headers.lookup height with
  | some h => some h
  | none => readH height

/-- `Blockchain.get_hash(height)` of `lib/blockchain.py`, as display-order
bytes; `'0' * 64` is 32 zero bytes, `checkpoints` entries are
`(hash, target)` pairs. -/
def get_hash (net : BTGNet) (hashPrim : List Nat → List Nat)
    (readH : Int → Option Header) (cps : List (List Nat × Int))
    (height : Int) : List Nat :=
  if height = -1 then List.replicate 32 0
  else if height = 0 then net.GENESIS
  else if height < (cps.length : Int) * difficulty_adjustment_interval ∧
          (height + 1).emod difficulty_adjustment_interval = 0 then
    (cps.getD (height.fdiv difficulty_adjustment_interval).toNat ([], 0)).1
  else hash_header_opt net hashPrim (readH height) height

/-- `Blockchain.get_target(height, headers)` of `lib/blockchain.py`.  The
three retarget algorithms it can dispatch to are taken as function
parameters `legacyT`, `digiT`, `lwmaT` (they only read headers; the
dispatch itself never inspects their values). -/
def get_target (net : BTGNet)
    (legacyT digiT lwmaT : Int → List (Int × Header) → Int)
    (cps : List (List Nat × Int))
    (height : Int) (headers : List (Int × Header)) : Int :=
  if height = 0 then net.POW_LIMIT_LEGACY
  else if height.emod difficulty_adjustment_interval = 0 ∧
          0 ≤ height.fdiv difficulty_adjustment_interval - 1 ∧
          height.fdiv difficulty_adjustment_interval - 1 < (cps.length : Int) then
    (cps.getD (height.fdiv difficulty_adjustment_interval - 1).toNat ([], 0)).2
  else if height < net.BTG_HEIGHT then legacyT height headers
  else if height < net.BTG_HEIGHT + net.PREMINE_SIZE then net.POW_LIMIT
  else if height < net.BTG_HEIGHT + net.PREMINE_SIZE + net.DIGI_AVERAGING_WINDOW then
    net.POW_LIMIT_START
  else if height < net.LWMA_HEIGHT then digiT height headers
  else lwmaT height headers

/-- First `(guard, value)` pair whose guard holds, else the default. -/
def first_match : List (Bool × Int) → Int → Int
  | [], dflt => dflt
  | (g, v) :: t, dflt => if g then v else first_match t dflt

/-- The target-selection rules exactly as the spec's §4.C ordered list
words them (with each rule carrying the full range the spec states), to be
compared with `get_target` as the source computes it. -/
def get_target_spec_rules (net : BTGNet)
    (legacyT digiT _lwmaT : Int → List (Int × Header) → Int)
    (cps : List (List Nat × Int))
    (height : Int) (headers : List (Int × Header)) : List (Bool × Int) :=
  [ (decide (height = 0), net.POW_LIMIT_LEGACY),
    (decide (height.emod 2016 = 0 ∧
             0 ≤ height.fdiv 2016 - 1 ∧ height.fdiv 2016 - 1 < (cps.length : Int)),
     (cps.getD (height.fdiv 2016 - 1).toNat ([], 0)).2),
    (decide (height < net.BTG_HEIGHT), legacyT height headers),
    (decide (net.BTG_HEIGHT ≤ height ∧ height < net.BTG_HEIGHT + net.PREMINE_SIZE),
     net.POW_LIMIT),
    (decide (net.BTG_HEIGHT + net.PREMINE_SIZE ≤ height ∧
             height < net.BTG_HEIGHT + net.PREMINE_SIZE + net.DIGI_AVERAGING_WINDOW),
     net.POW_LIMIT_START),
    (decide (height < net.LWMA_HEIGHT), digiT height headers) ]

/-- Spec-side target selection: first matching rule, `get_lwma_target`
otherwise. -/
def get_target_spec (net : BTGNet)
    (legacyT digiT lwmaT : Int → List (Int × Header) → Int)
    (cps : List (List Nat × Int))
    (height : Int) (headers : List (Int × Header)) : Int :=
  first_match (get_target_spec_rules net legacyT digiT lwmaT cps height headers)
    (lwmaT height headers)

/-- The distinct failure modes of `Blockchain.verify_header`. -/
inductive VerifyErr where
  | prevHashMismatch
  | bitsMismatch
  | insufficientPoW
  | invalidEquihash
  | varintError
deriving Repr, DecidableEq

/-- Modelled from the spec: `get_equihash_params` of the missing
`lib/bitcoin.py` — the per-network `(N, K)` pair. -/
def get_equihash_params (net : BTGNet) (_height : Int) : Nat × Nat :=
  (net.EQUIHASH_N, net.EQUIHASH_K)

/-- `Blockchain.verify_header(header, prev_hash, target)` of
`lib/blockchain.py`, parametrised by the external double-SHA256 `hashPrim`
and the external Equihash check `gbp`.  `int('0x' + _hash, 16)` is the
big-endian value of the display-order hash;
`uint256_from_bytes(bfh(nonce)[::-1])` is the little-endian value of the
wire-order nonce. -/
def verify_header (net : BTGNet) (hashPrim : List Nat → List Nat)
    (gbp : List Nat → Nat → List Nat → Nat → Nat → Bool)
    (header : Header) (prev_hash : List Nat) (target : Int) :
    Except VerifyErr Unit :=
  if prev_hash ≠ header.prev_block_hash then .error .prevHashMismatch
  else
    let bits := target_to_bits target.toNat
    if bits ≠ header.bits then .error .bitsMismatch
    else
      let hashVal : Int :=
        (beval (hash_header net hashPrim header header.block_height) : Int)
      if hashVal > target then .error .insufficientPoW
      else if is_post_btg_fork net header.block_height then
        let header_bytes := serialize_header header false
        let nonceVal := leval header.nonce.reverse
        match var_int_read header.solution.reverse with
        | none => .error .varintError
        | some (off, _len) =>
          let solution := header.solution.reverse.drop off
          let params := get_equihash_params net header.block_height
          if gbp header_bytes nonceVal solution params.1 params.2 then .ok ()
          else .error .invalidEquihash
      else .ok ()

/-- Loop body of `Blockchain.verify_chunk`, structurally recursive on the
remaining bytes (each pass consumes `get_header_size` bytes; the `fuel`
argument only makes the recursion visibly terminating and is always ample
at the call site). -/
def verify_chunk_go (net : BTGNet) (hashPrim : List Nat → List Nat)
    (gbp : List Nat → Nat → List Nat → Nat → Nat → Bool)
    (legacyT digiT lwmaT : Int → List (Int × Header) → Int)
    (cps : List (List Nat × Int)) :
    Nat → List Nat → Int → List Nat → Int → List (Int × Header) →
    Except String Unit
  | _, [], _, _, _, _ => .ok ()
  | 0, _ :: _, _, _, _, _ => .error "out of fuel"
  | fuel + 1, rem@(_ :: _), height, prev_hash, target, headers =>
    let header_size := (get_header_size net height).toNat
    let raw_header := rem.take header_size
    match deserialize_header raw_header height with
    | none => .error "Invalid header"
    | some header =>
      let headers' := (height, header) :: headers
      let target' :=
        if needs_retarget height ∨ target = 0 then
          get_target net legacyT digiT lwmaT cps height headers'
        else target
      match verify_header net hashPrim gbp header prev_hash target' with
      | .error _ => .error "verify_header failed"
      | .ok _ =>
        verify_chunk_go net hashPrim gbp legacyT digiT lwmaT cps fuel
          (rem.drop header_size) (height + 1)
          (hash_header net hashPrim header height) target' headers'

/-- `Blockchain.verify_chunk(height, data)` of `lib/blockchain.py` (the
UI `sleep` aside), with the stored-header lookup abstracted as `readH`. -/
def verify_chunk (net : BTGNet) (hashPrim : List Nat → List Nat)
    (gbp : List Nat → Nat → List Nat → Nat → Nat → Bool)
    (legacyT digiT lwmaT : Int → List (Int × Header) → Int)
    (cps : List (List Nat × Int)) (readH : Int → Option Header)
    (height : Int) (data : List Nat) : Except String Unit :=
  verify_chunk_go net hashPrim gbp legacyT digiT lwmaT cps
    data.length data height
    (get_hash net hashPrim readH cps (height - 1)) 0 []

/-- `Blockchain.connect_chunk(idx, hexdata)` of `lib/blockchain.py`: decode
the hex, verify, and only then save; any failure returns `false` with the
branch state untouched. -/
def connect_chunk (net : BTGNet) (hashPrim : List Nat → List Nat)
    (gbp : List Nat → Nat → List Nat → Nat → Nat → Bool)
    (legacyT digiT lwmaT : Int → List (Int × Header) → Int)
    (cps : List (List Nat × Int)) (readH : Int → Option Header)
    (b parent : BranchSt) (idx : Int) (hexdata : List Char) :
    Bool × (BranchSt × BranchSt) :=
  match hexDecode hexdata with
  | none => (false, (b, parent))
  | some data =>
    match verify_chunk net hashPrim gbp legacyT digiT lwmaT cps readH
        (idx * net.CHUNK_SIZE) data with
    | .error _ => (false, (b, parent))
    | .ok _ =>
      (true, save_chunk net b parent cps.length (idx * net.CHUNK_SIZE) data)

/-- Well-formed header record: the hash-valued fields carry their wire
lengths and the integer fields fit their four-byte encodings. -/
def Header.wf (H : Header) : Prop :=
  H.version < 2 ^ 32 ∧ H.timestamp < 2 ^ 32 ∧ H.bits < 2 ^ 32 ∧
  0 ≤ H.block_height ∧ H.block_height < 2 ^ 32 ∧
  H.prev_block_hash.length = 32 ∧ H.merkle_root.length = 32 ∧
  H.reserved.length = 28 ∧ H.nonce.length = 32

instance (H : Header) : Decidable H.wf := by
  unfold Header.wf; infer_instance

example : leval (leBytes 70015 4) = 70015 := by decide
example : hexDecode "00ff".toList = some [0, 255] := by decide
example : bits_to_target 0x1d00ffff =
    0x00000000ffff0000000000000000000000000000000000000000000000000000 := by decide
example : get_offset regtest 1 2 = 141 := by decide
example : get_offset regtest 1 2001 = 1999 * 141 + 177 := by decide
example : calculate_size regtest 0 (2000 * 141 + 177) = 2001 := by decide
example : calculate_size regtest 1 (1999 * 141 + 177) = 1999 := by decide

theorem length_leBytes (v n : Nat) : (leBytes v n).length = n := by
  induction n generalizing v with
  | zero => rfl
  | succ n ih => simp [leBytes, ih]

theorem leval_leBytes (v n : Nat) : leval (leBytes v n) = v % 256 ^ n := by
  induction n generalizing v with
  | zero => simp [leBytes, leval, Nat.mod_one]
  | succ n ih =>
    simp only [leBytes, leval, ih]
    rw [pow_succ, mul_comm (256 ^ n) 256, Nat.mod_mul]

theorem slice_start (pre post : List Nat) (n : Nat) (h : pre.length = n) :
    (pre ++ post).take n = pre := by
  subst h; exact List.take_left pre post

theorem slice_end (pre post : List Nat) (n : Nat) (h : pre.length = n) :
    (pre ++ post).drop n = post := by
  subst h; exact List.drop_left pre post

theorem slice_mid (pre mid post : List Nat) (i n : Nat)
    (hpre : pre.length = i) (hmid : mid.length = n) :
    ((pre ++ mid ++ post).drop i).take n = mid := by
  subst hpre hmid
  rw [List.append_assoc, List.drop_left, List.take_left]

theorem serialize_header_length_legacy (H : Header) (h : H.wf) :
    (serialize_header H true).length = 80 := by
  obtain ⟨-, -, -, -, -, hp, hm, -, hn⟩ := h
  simp [serialize_header, length_leBytes, hp, hm, List.length_take, hn]

theorem serialize_header_length_postfork (H : Header) (h : H.wf) :
    (serialize_header H false).length = 140 + H.solution.length := by
  obtain ⟨-, -, -, -, -, hp, hm, hr, hn⟩ := h
  simp [serialize_header, length_leBytes, hp, hm, hr, hn]
  omega

theorem serialize_header_ne_nil (H : Header) (legacy : Bool) :
    serialize_header H legacy ≠ [] := by
  intro hcon
  have := congrArg List.length hcon
  simp [serialize_header, length_leBytes] at this

/-- C3 (corrected): for every well-formed header, deserializing the
non-legacy serialization round-trips:
`deserialize(serialize(H, legacy=false), H.block_height) == H`.
`deserialize_header` parses the single unified post-fork layout whatever the
height, so — against the claim's wording — the 80-byte legacy serialization
(`legacy=true`) is not inverted by it; see the counterexample. -/
theorem deserialize_serialize_header (H : Header) (h : H.wf) :
    deserialize_header (serialize_header H false) H.block_height = some H := by
  obtain ⟨hv, hts, hbits, hbh0, hbh1, hp, hm, hr, hn⟩ := h
  have hbhlt : H.block_height.toNat < 2 ^ 32 := by omega
  have hser : serialize_header H false =
      leBytes H.version 4 ++ (H.prev_block_hash.reverse ++ (H.merkle_root.reverse ++
        (leBytes H.block_height.toNat 4 ++ (H.reserved.reverse ++
          (leBytes H.timestamp 4 ++ (leBytes H.bits 4 ++
            (H.nonce.reverse ++ H.solution.reverse))))))) := by
    simp [serialize_header, List.append_assoc]
  rw [deserialize_header, if_neg (serialize_header_ne_nil H false)]
  have hversion : (serialize_header H false).take 4 = leBytes H.version 4 := by
    rw [hser]; exact slice_start _ _ 4 (length_leBytes _ 4)
  have hprev : ((serialize_header H false).drop 4).take 32 =
      H.prev_block_hash.reverse := by
    have : serialize_header H false = leBytes H.version 4 ++ H.prev_block_hash.reverse
        ++ (H.merkle_root.reverse ++ (leBytes H.block_height.toNat 4 ++
          (H.reserved.reverse ++ (leBytes H.timestamp 4 ++ (leBytes H.bits 4 ++
            (H.nonce.reverse ++ H.solution.reverse)))))) := by
      simp [serialize_header, List.append_assoc]
    rw [this]
    exact slice_mid _ _ _ 4 32 (length_leBytes _ 4) (by simp [hp])
  have hmerkle : ((serialize_header H false).drop 36).take 32 =
      H.merkle_root.reverse := by
    have : serialize_header H false = (leBytes H.version 4 ++ H.prev_block_hash.reverse)
        ++ H.merkle_root.reverse ++ (leBytes H.block_height.toNat 4 ++
          (H.reserved.reverse ++ (leBytes H.timestamp 4 ++ (leBytes H.bits 4 ++
            (H.nonce.reverse ++ H.solution.reverse))))) := by
      simp [serialize_header, List.append_assoc]
    rw [this]
    exact slice_mid _ _ _ 36 32 (by simp [length_leBytes, hp]) (by simp [hm])
  have hreserved : ((serialize_header H false).drop 72).take 28 =
      H.reserved.reverse := by
    have : serialize_header H false = (leBytes H.version 4 ++ H.prev_block_hash.reverse
        ++ H.merkle_root.reverse ++ leBytes H.block_height.toNat 4)
        ++ H.reserved.reverse ++ (leBytes H.timestamp 4 ++ (leBytes H.bits 4 ++
          (H.nonce.reverse ++ H.solution.reverse))) := by
      simp [serialize_header, List.append_assoc]
    rw [this]
    exact slice_mid _ _ _ 72 28 (by simp [length_leBytes, hp, hm]) (by simp [hr])
  have htimestamp : ((serialize_header H false).drop 100).take 4 =
      leBytes H.timestamp 4 := by
    have : serialize_header H false = (leBytes H.version 4 ++ H.prev_block_hash.reverse
        ++ H.merkle_root.reverse ++ leBytes H.block_height.toNat 4
        ++ H.reserved.reverse) ++ leBytes H.timestamp 4 ++ (leBytes H.bits 4 ++
          (H.nonce.reverse ++ H.solution.reverse)) := by
      simp [serialize_header, List.append_assoc]
    rw [this]
    exact slice_mid _ _ _ 100 4 (by simp [length_leBytes, hp, hm, hr])
      (length_leBytes _ 4)
  have hfbits : ((serialize_header H false).drop 104).take 4 =
      leBytes H.bits 4 := by
    have : serialize_header H false = (leBytes H.version 4 ++ H.prev_block_hash.reverse
        ++ H.merkle_root.reverse ++ leBytes H.block_height.toNat 4
        ++ H.reserved.reverse ++ leBytes H.timestamp 4) ++ leBytes H.bits 4 ++
          (H.nonce.reverse ++ H.solution.reverse) := by
      simp [serialize_header, List.append_assoc]
    rw [this]
    exact slice_mid _ _ _ 104 4 (by simp [length_leBytes, hp, hm, hr])
      (length_leBytes _ 4)
  have hnonce : ((serialize_header H false).drop 108).take 32 =
      H.nonce.reverse := by
    have : serialize_header H false = (leBytes H.version 4 ++ H.prev_block_hash.reverse
        ++ H.merkle_root.reverse ++ leBytes H.block_height.toNat 4
        ++ H.reserved.reverse ++ leBytes H.timestamp 4 ++ leBytes H.bits 4)
        ++ H.nonce.reverse ++ H.solution.reverse := by
      simp [serialize_header, List.append_assoc]
    rw [this]
    exact slice_mid _ _ _ 108 32 (by simp [length_leBytes, hp, hm, hr]) (by simp [hn])
  have hsolution : (serialize_header H false).drop 140 = H.solution.reverse := by
    have : serialize_header H false = (leBytes H.version 4 ++ H.prev_block_hash.reverse
        ++ H.merkle_root.reverse ++ leBytes H.block_height.toNat 4
        ++ H.reserved.reverse ++ leBytes H.timestamp 4 ++ leBytes H.bits 4
        ++ H.nonce.reverse) ++ H.solution.reverse := by
      simp [serialize_header, List.append_assoc]
    rw [this]
    exact slice_end _ _ 140 (by simp [length_leBytes, hp, hm, hr, hn])
  rw [hversion, hprev, hmerkle, hreserved, htimestamp, hfbits, hnonce, hsolution]
  have h256 : (256 : Nat) ^ 4 = 2 ^ 32 := by norm_num
  simp only [leval_leBytes, List.reverse_reverse, h256,
    Nat.mod_eq_of_lt hv, Nat.mod_eq_of_lt hts, Nat.mod_eq_of_lt hbits]

/-- C3 counterexample: a concrete well-formed pre-fork (mainnet) header with
its matching legacy flag does not round-trip — `deserialize_header` has no
legacy layout, so the 80-byte legacy serialization parses into garbage
(e.g. an 8-byte `reserved` field). -/
theorem deserialize_serialize_header_legacy_fails :
    deserialize_header
      (serialize_header
        { version := 1, prev_block_hash := List.replicate 32 17,
          merkle_root := List.replicate 32 34, block_height := 5,
          reserved := List.replicate 28 0, timestamp := 7,
          bits := 486604799, nonce := List.replicate 32 3,
          solution := [0] } true) 5 ≠
    some { version := 1, prev_block_hash := List.replicate 32 17,
           merkle_root := List.replicate 32 34, block_height := 5,
           reserved := List.replicate 28 0, timestamp := 7,
           bits := 486604799, nonce := List.replicate 32 3,
           solution := [0] } := by decide

/-- C3 witness: the round-trip theorem applied to one concrete well-formed
header. -/
theorem deserialize_serialize_header_witness :
    deserialize_header
      (serialize_header
        { version := 1, prev_block_hash := List.replicate 32 17,
          merkle_root := List.replicate 32 34, block_height := 491500,
          reserved := List.replicate 28 0, timestamp := 7,
          bits := 486604799, nonce := List.replicate 32 3,
          solution := [5, 9, 9, 9, 9, 9] } false) 491500 =
    some { version := 1, prev_block_hash := List.replicate 32 17,
           merkle_root := List.replicate 32 34, block_height := 491500,
           reserved := List.replicate 28 0, timestamp := 7,
           bits := 486604799, nonce := List.replicate 32 3,
           solution := [5, 9, 9, 9, 9, 9] } :=
  deserialize_serialize_header _ (by decide)

/-- C4 counterexample: the per-row constant `HEADER_SIZE_LEGACY` that
`lib/constants.py` declares — and that the offset arithmetic of
`get_offset` / `calculate_size` uses for pre-fork rows — is not 80. -/
theorem header_size_legacy_ne_80 : mainnet.HEADER_SIZE_LEGACY ≠ 80 := by decide

/-- C4 (corrected): the legacy wire serialization of a well-formed header is
exactly 80 bytes, but the per-row on-disk size `HEADER_SIZE_LEGACY` used for
offset arithmetic is 141 (the unified layout row: 140 fixed bytes plus the
one-byte varint of an empty solution).  Post-fork, a header whose solution
field has the network's solution size serializes to `HEADER_SIZE` bytes:
1487 on mainnet and testnet (3-byte varint + 1344-byte Equihash(200,9)
solution), 177 on regtest (1-byte varint + 36-byte Equihash(48,5)
solution). -/
theorem header_sizes (H : Header) (h : H.wf) :
    (serialize_header H true).length = 80 ∧
    mainnet.HEADER_SIZE_LEGACY = 141 ∧ testnet.HEADER_SIZE_LEGACY = 141 ∧
    regtest.HEADER_SIZE_LEGACY = 141 ∧
    (H.solution.length = 1347 →
      ((serialize_header H false).length : Int) = mainnet.HEADER_SIZE ∧
      ((serialize_header H false).length : Int) = testnet.HEADER_SIZE) ∧
    (H.solution.length = 37 →
      ((serialize_header H false).length : Int) = regtest.HEADER_SIZE) := by
  refine ⟨serialize_header_length_legacy H h, by decide, by decide, by decide, ?_, ?_⟩
  · intro hsol
    rw [serialize_header_length_postfork H h, hsol]
    exact ⟨by decide, by decide⟩
  · intro hsol
    rw [serialize_header_length_postfork H h, hsol]
    decide

/-- C4 witness: the size theorem applied to one concrete well-formed header
with a regtest-sized solution. -/
theorem header_sizes_witness :
    (serialize_header
      { version := 1, prev_block_hash := List.replicate 32 17,
        merkle_root := List.replicate 32 34, block_height := 100,
        reserved := List.replicate 28 0, timestamp := 7,
        bits := 486604799, nonce := List.replicate 32 3,
        solution := List.replicate 37 9 } true).length = 80 :=
  (header_sizes _ (by decide)).1


/-- C2 (confirmed): for every height, `get_target` selects its result by the
first matching rule of the spec's ordered list — genesis, checkpointed
window, legacy, premine, reduced-difficulty start, Digishield, LWMA — as
`get_target_spec` states it. -/
theorem get_target_eq_spec (net : BTGNet)
    (legacyT digiT lwmaT : Int → List (Int × Header) → Int)
    (cps : List (List Nat × Int)) (height : Int)
    (headers : List (Int × Header)) :
    get_target net legacyT digiT lwmaT cps height headers =
    get_target_spec net legacyT digiT lwmaT cps height headers := by
  simp only [get_target, get_target_spec, get_target_spec_rules, first_match,
    difficulty_adjustment_interval, decide_eq_true_eq]
  split_ifs <;> first | rfl | omega

theorem bits_decode_encode_aux (c n : Nat) (hc : c < 2 ^ 23) :
    bits_to_target (n * 2 ^ 24 + c) =
      if n ≤ 3 then c / 2 ^ (8 * (3 - n)) else c * 2 ^ (8 * (n - 3)) := by
  have h1 : (n * 2 ^ 24 + c) / 2 ^ 24 = n := by
    rw [mul_comm, Nat.mul_add_div (by norm_num)]
    have hz : c / 2 ^ 24 = 0 := Nat.div_eq_of_lt (lt_of_lt_of_le hc (by norm_num))
    omega
  have h2 : (n * 2 ^ 24 + c) % 2 ^ 23 = c := by
    have e : n * 2 ^ 24 = 2 ^ 23 * (n * 2) := by ring
    rw [e, Nat.mul_add_mod, Nat.mod_eq_of_lt hc]
  simp only [bits_to_target, h1, h2]

theorem no_high_bit (c : Nat) (hlt : c < 2 ^ 23) : ¬ c / 2 ^ 23 % 2 = 1 := by
  rw [Nat.div_eq_of_lt hlt]
  norm_num

theorem high_bit_cond (c : Nat) (hc : c < 2 ^ 24) (hge : 2 ^ 23 ≤ c) :
    c / 2 ^ 23 % 2 = 1 := by
  have hlt2 : c / 2 ^ 23 < 2 := by
    rw [Nat.div_lt_iff_lt_mul (by positivity)]
    calc c < 2 ^ 24 := hc
      _ = 2 * 2 ^ 23 := by norm_num
  have hge1 : 1 ≤ c / 2 ^ 23 := (Nat.one_le_div_iff (by positivity)).mpr hge
  omega

theorem div256_lt (c : Nat) (hc : c < 2 ^ 24) : c / 2 ^ 8 < 2 ^ 23 := by
  have h16 : c / 2 ^ 8 < 2 ^ 16 := by
    rw [Nat.div_lt_iff_lt_mul (by positivity)]
    calc c < 2 ^ 24 := hc
      _ = 2 ^ 16 * 2 ^ 8 := by norm_num
  exact lt_of_lt_of_le h16 (by norm_num)

/-- C9 (confirmed): decoding the compact encoding is the identity on every
target whose mantissa fits the three-byte word with the sign bit clear —
exactly the targets of the form `m * 256 ^ e` with `m < 0x800000`:
`bits_to_target (target_to_bits t) = t`. -/
theorem bits_to_target_target_to_bits (t : Nat)
    (h : ∃ m e : Nat, t = m * 256 ^ e ∧ m < 2 ^ 23) :
    bits_to_target (target_to_bits t) = t := by
  obtain ⟨m, e, rfl, hm⟩ := h
  rcases Nat.eq_zero_or_pos m with hm0 | hmpos
  · subst hm0
    simp [target_to_bits, bits_to_target, Nat.size_zero]
  · have h256 : (256 : Nat) ^ e = 2 ^ (8 * e) := by
      rw [show (256 : Nat) = 2 ^ 8 by norm_num, ← pow_mul]
    have htpos : 0 < m * 256 ^ e := Nat.mul_pos hmpos (pow_pos (by norm_num) e)
    set t := m * 256 ^ e with ht
    set n₀ := Nat.size t with hn0
    set ns := (n₀ + 7) / 8 with hns
    have hA1 : t < 2 ^ (8 * ns) :=
      lt_of_lt_of_le (Nat.lt_size_self t)
        (Nat.pow_le_pow_right (by norm_num) (by omega))
    have hsizele : n₀ ≤ 23 + 8 * e := by
      have hlt : t < 2 ^ (23 + 8 * e) := by
        rw [ht, h256, pow_add]
        exact mul_lt_mul_of_pos_right hm (pow_pos (by norm_num) _)
      exact Nat.size_le.mpr hlt
    have hnse : ns ≤ 3 + e := by omega
    simp only [target_to_bits]
    rw [← hn0, ← hns]
    by_cases h3 : ns ≤ 3
    · rw [if_pos h3]
      set c₀ := t * 2 ^ (8 * (3 - ns)) with hc0
      have hc24 : c₀ < 2 ^ 24 := by
        rw [hc0]
        calc t * 2 ^ (8 * (3 - ns)) < 2 ^ (8 * ns) * 2 ^ (8 * (3 - ns)) :=
              mul_lt_mul_of_pos_right hA1 (pow_pos (by norm_num) _)
          _ = 2 ^ 24 := by rw [← pow_add]; congr 1; omega
      by_cases hlt : c₀ < 2 ^ 23
      · have hcond := no_high_bit c₀ hlt
        rw [if_neg hcond, if_neg hcond, bits_decode_encode_aux _ _ hlt,
          if_pos h3, hc0, Nat.mul_div_cancel _ (pow_pos (by norm_num) _)]
      · have hge : 2 ^ 23 ≤ c₀ := le_of_not_lt hlt
        have hcond := high_bit_cond c₀ hc24 hge
        rw [if_pos hcond, if_pos hcond]
        have hdvd : 2 ^ 8 ∣ c₀ := by
          by_cases h2 : ns ≤ 2
          · rw [hc0]
            exact Dvd.dvd.mul_left (pow_dvd_pow 2 (by omega)) t
          · have hns3 : ns = 3 := by omega
            have he1 : 1 ≤ e := by
              rcases Nat.eq_zero_or_pos e with he0 | he1
              · exfalso
                have htm : t = m := by rw [ht, he0]; norm_num
                have hc0t : c₀ = t := by rw [hc0, hns3]; norm_num
                rw [hc0t, htm] at hge
                omega
              · exact he1
            have hdt : (2 : Nat) ^ 8 ∣ t := by
              rw [ht, h256]
              exact Dvd.dvd.mul_left (pow_dvd_pow 2 (by omega)) m
            rw [hc0, hns3]
            simpa using hdt
        rw [bits_decode_encode_aux _ _ (div256_lt c₀ hc24)]
        by_cases h2 : ns ≤ 2
        · rw [if_pos (by omega : ns + 1 ≤ 3)]
          rw [Nat.div_div_eq_div_mul, ← pow_add, hc0]
          rw [show 8 + 8 * (3 - (ns + 1)) = 8 * (3 - ns) by omega]
          exact Nat.mul_div_cancel _ (pow_pos (by norm_num) _)
        · have hns3 : ns = 3 := by omega
          rw [if_neg (by omega : ¬ ns + 1 ≤ 3)]
          have hc0t : c₀ = t := by rw [hc0, hns3]; norm_num
          rw [hc0t, hns3]
          norm_num
          exact Nat.div_mul_cancel (hc0t ▸ hdvd)
    · rw [if_neg h3]
      set c₀ := t / 2 ^ (8 * (ns - 3)) with hc0
      have hdvd3 : 2 ^ (8 * (ns - 3)) ∣ t := by
        rw [ht, h256]
        exact Dvd.dvd.mul_left (pow_dvd_pow 2 (by omega)) m
      have hCmul : c₀ * 2 ^ (8 * (ns - 3)) = t := Nat.div_mul_cancel hdvd3
      have hc24 : c₀ < 2 ^ 24 := by
        rw [hc0, Nat.div_lt_iff_lt_mul (by positivity), ← pow_add]
        exact lt_of_lt_of_le hA1 (Nat.pow_le_pow_right (by norm_num) (by omega))
      by_cases hlt : c₀ < 2 ^ 23
      · have hcond := no_high_bit c₀ hlt
        rw [if_neg hcond, if_neg hcond, bits_decode_encode_aux _ _ hlt,
          if_neg h3]
        exact hCmul
      · have hge : 2 ^ 23 ≤ c₀ := le_of_not_lt hlt
        have hcond := high_bit_cond c₀ hc24 hge
        rw [if_pos hcond, if_pos hcond]
        have hC' : c₀ = m * 2 ^ (8 * e - 8 * (ns - 3)) := by
          have hsplit : (2 : Nat) ^ (8 * e) =
              2 ^ (8 * e - 8 * (ns - 3)) * 2 ^ (8 * (ns - 3)) := by
            rw [← pow_add]
            congr 1
            omega
          rw [hc0, ht, h256, hsplit, ← mul_assoc]
          exact Nat.mul_div_cancel _ (pow_pos (by norm_num) _)
        have hee : 1 ≤ 8 * e - 8 * (ns - 3) := by
          by_contra hcon
          push_neg at hcon
          have h0 : 8 * e - 8 * (ns - 3) = 0 := by omega
          rw [h0] at hC'
          simp at hC'
          omega
        have hdvd8 : 2 ^ 8 ∣ c₀ := by
          rw [hC']
          exact Dvd.dvd.mul_left (pow_dvd_pow 2 (by omega)) m
        rw [bits_decode_encode_aux _ _ (div256_lt c₀ hc24),
          if_neg (by omega : ¬ ns + 1 ≤ 3)]
        rw [show 8 * (ns + 1 - 3) = 8 + 8 * (ns - 3) by omega,
          pow_add, ← mul_assoc, Nat.div_mul_cancel hdvd8]
        exact hCmul

/-- C9 witness: the round-trip theorem at the mainnet legacy PoW limit,
whose mantissa is `0xffff` with 28 zero bytes below it. -/
theorem bits_to_target_target_to_bits_witness :
    bits_to_target (target_to_bits mainnet.POW_LIMIT_LEGACY.toNat) =
      mainnet.POW_LIMIT_LEGACY.toNat :=
  bits_to_target_target_to_bits _ ⟨0xffff, 26, by decide, by decide⟩

/-- C1 (confirmed): `verify_header(header, prev_hash, target)` raises exactly
when, in this order: the previous-hash check, the bits check, the
proof-of-work check, or (post-fork only) the Equihash check fails; otherwise
it returns without error.  The hypotheses delimit the domain the source
works in: a non-negative target small enough that `target_to_bits`'s
`nsize < 256` assertion holds, and a solution whose varint length prefix
parses (the source would otherwise raise an `IndexError`, not one of the
four errors). -/
theorem verify_header_error_conditions
    (net : BTGNet) (hashPrim : List Nat → List Nat)
    (gbp : List Nat → Nat → List Nat → Nat → Nat → Bool)
    (header : Header) (prev_hash : List Nat) (target : Int)
    (off len : Nat)
    (_ht0 : 0 ≤ target) (_ht1 : target < 2 ^ 256)
    (hsol : is_post_btg_fork net header.block_height = true →
      var_int_read header.solution.reverse = some (off, len)) :
    (verify_header net hashPrim gbp header prev_hash target =
        .error .prevHashMismatch ↔ prev_hash ≠ header.prev_block_hash) ∧
    (verify_header net hashPrim gbp header prev_hash target =
        .error .bitsMismatch ↔
      prev_hash = header.prev_block_hash ∧
      target_to_bits target.toNat ≠ header.bits) ∧
    (verify_header net hashPrim gbp header prev_hash target =
        .error .insufficientPoW ↔
      prev_hash = header.prev_block_hash ∧
      target_to_bits target.toNat = header.bits ∧
      (beval (hash_header net hashPrim header header.block_height) : Int) >
        target) ∧
    (verify_header net hashPrim gbp header prev_hash target =
        .error .invalidEquihash ↔
      prev_hash = header.prev_block_hash ∧
      target_to_bits target.toNat = header.bits ∧
      ¬ (beval (hash_header net hashPrim header header.block_height) : Int) >
          target ∧
      is_post_btg_fork net header.block_height = true ∧
      gbp (serialize_header header false) (leval header.nonce.reverse)
        (header.solution.reverse.drop off) net.EQUIHASH_N net.EQUIHASH_K =
        false) ∧
    (verify_header net hashPrim gbp header prev_hash target = .ok () ↔
      prev_hash = header.prev_block_hash ∧
      target_to_bits target.toNat = header.bits ∧
      ¬ (beval (hash_header net hashPrim header header.block_height) : Int) >
          target ∧
      (is_post_btg_fork net header.block_height = true →
        gbp (serialize_header header false) (leval header.nonce.reverse)
          (header.solution.reverse.drop off) net.EQUIHASH_N
          net.EQUIHASH_K = true)) := by
  simp only [verify_header, get_equihash_params]
  by_cases h1 : prev_hash ≠ header.prev_block_hash
  · rw [if_pos h1]
    simp_all
  · rw [if_neg h1]
    by_cases h2 : target_to_bits target.toNat ≠ header.bits
    · rw [if_pos h2]
      simp_all
    · rw [if_neg h2]
      by_cases h3 : (beval (hash_header net hashPrim header header.block_height) :
          Int) > target
      · rw [if_pos h3]
        simp_all
      · rw [if_neg h3]
        by_cases h4 : is_post_btg_fork net header.block_height = true
        · rw [if_pos h4, hsol h4]
          by_cases h5 : gbp (serialize_header header false)
              (leval header.nonce.reverse) (header.solution.reverse.drop off)
              net.EQUIHASH_N net.EQUIHASH_K = true
          · simp_all
          · simp_all
        · rw [if_neg h4]
          simp_all

/-- C1 witness: the cascade theorem applied at a concrete pre-fork header
whose checks all pass, concluding that `verify_header` returns without
error. -/
theorem verify_header_error_conditions_witness :
    verify_header mainnet (fun _ => List.replicate 32 0)
      (fun _ _ _ _ _ => true)
      { version := 1, prev_block_hash := List.replicate 32 17,
        merkle_root := List.replicate 32 34, block_height := 5,
        reserved := List.replicate 28 0, timestamp := 7,
        bits := target_to_bits 0, nonce := List.replicate 32 3,
        solution := [0] }
      (List.replicate 32 17) 0 = Except.ok () :=
  (verify_header_error_conditions mainnet (fun _ => List.replicate 32 0)
      (fun _ _ _ _ _ => true)
      { version := 1, prev_block_hash := List.replicate 32 17,
        merkle_root := List.replicate 32 34, block_height := 5,
        reserved := List.replicate 28 0, timestamp := 7,
        bits := target_to_bits 0, nonce := List.replicate 32 3,
        solution := [0] }
      (List.replicate 32 17) 0 1 0 (by decide) (by norm_num)
      (by decide)).2.2.2.2.mpr
    ⟨rfl, congrArg target_to_bits (by decide : ((0 : Int).toNat) = 0),
      by decide, fun _ => rfl⟩

/-- C6 (confirmed): `connect_chunk(idx, hexdata)` returns true exactly when
the hex decodes and the chunk starting at height `idx * CHUNK_SIZE`
verifies; on any decoding or verification failure it returns false with both
branch states byte-identical to before; on success the state is exactly the
`save_chunk` result — no partial writes. -/
theorem connect_chunk_atomic
    (net : BTGNet) (hashPrim : List Nat → List Nat)
    (gbp : List Nat → Nat → List Nat → Nat → Nat → Bool)
    (legacyT digiT lwmaT : Int → List (Int × Header) → Int)
    (cps : List (List Nat × Int)) (readH : Int → Option Header)
    (b parent : BranchSt) (idx : Int) (hexdata : List Char) :
    ((connect_chunk net hashPrim gbp legacyT digiT lwmaT cps readH b parent
        idx hexdata).1 = true ↔
      ∃ data, hexDecode hexdata = some data ∧
        verify_chunk net hashPrim gbp legacyT digiT lwmaT cps readH
          (idx * net.CHUNK_SIZE) data = .ok ()) ∧
    ((connect_chunk net hashPrim gbp legacyT digiT lwmaT cps readH b parent
        idx hexdata).1 = false →
      (connect_chunk net hashPrim gbp legacyT digiT lwmaT cps readH b parent
        idx hexdata).2 = (b, parent)) ∧
    (∀ data, hexDecode hexdata = some data →
      verify_chunk net hashPrim gbp legacyT digiT lwmaT cps readH
        (idx * net.CHUNK_SIZE) data = .ok () →
      (connect_chunk net hashPrim gbp legacyT digiT lwmaT cps readH b parent
        idx hexdata).2 =
        save_chunk net b parent cps.length (idx * net.CHUNK_SIZE) data) := by
  cases hdec : hexDecode hexdata with
  | none => simp [connect_chunk, hdec]
  | some data =>
    cases hver : verify_chunk net hashPrim gbp legacyT digiT lwmaT cps readH
        (idx * net.CHUNK_SIZE) data with
    | error e => simp [connect_chunk, hdec, hver]
    | ok u =>
      cases u
      simp [connect_chunk, hdec, hver]

/-- C10 (confirmed): `read_header(height)` yields no header for a negative
height and for a height past the branch tip; an in-range all-zero row also
reads as no header; and an in-range row with fewer than the full
header-size bytes on disk raises instead of returning a truncated
header. -/
theorem read_header_bounds
    (net : BTGNet) (parentRead : Int → Except String (Option Header))
    (b : BranchSt) (height : Int) (hsz : 0 ≤ b.size) :
    (height < 0 → read_header net parentRead b height = .ok none) ∧
    (height > branch_height b →
      read_header net parentRead b height = .ok none) ∧
    (0 ≤ height → b.checkpoint ≤ height → height ≤ branch_height b →
      (b.file.drop (get_offset net b.checkpoint height).toNat).take
          (get_header_size net height).toNat =
        List.replicate (get_header_size net height).toNat 0 →
      read_header net parentRead b height = .ok none) ∧
    (0 ≤ height → b.checkpoint ≤ height → height ≤ branch_height b →
      ((b.file.drop (get_offset net b.checkpoint height).toNat).take
          (get_header_size net height).toNat).length <
        (get_header_size net height).toNat →
      ∃ msg, read_header net parentRead b height = .error msg) := by
  refine ⟨?_, ?_, ?_, ?_⟩
  · intro hneg
    simp only [read_header]
    rw [if_pos hneg]
  · intro hgt
    simp only [read_header]
    by_cases hneg : height < 0
    · rw [if_pos hneg]
    · rw [if_neg hneg, if_neg (by unfold branch_height at hgt; omega),
        if_pos hgt]
  · intro h0 hcp hle hzero
    simp only [read_header]
    rw [if_neg (by omega), if_neg (by omega), if_neg (by omega), hzero]
    rw [if_neg (by simp), if_pos rfl]
  · intro h0 hcp hle hshort
    simp only [read_header]
    rw [if_neg (by omega), if_neg (by omega), if_neg (by omega),
      if_pos hshort]
    exact ⟨_, rfl⟩

/-- C10 witness: the bounds theorem applied to a one-row branch whose single
stored row is all zeros, reading as no header. -/
theorem read_header_bounds_witness :
    read_header regtest (fun _ => Except.ok none)
      ⟨0, none, 1, List.replicate 141 0⟩ 0 = Except.ok none :=
  (read_header_bounds regtest (fun _ => Except.ok none)
      ⟨0, none, 1, List.replicate 141 0⟩ 0 (by decide)).2.2.1
    (by decide) (by decide) (by decide) (by decide)

theorem padTo_length (f : List Nat) (n : Nat) : (padTo f n).length = n := by
  simp [padTo]
  omega

theorem branch_write_trunc (net : BTGNet) (b : BranchSt) (data : List Nat)
    (offset : Int) (hne : offset ≠ get_offset net b.checkpoint b.size) :
    branch_write net b data offset true =
      { b with file := padTo b.file offset.toNat ++ data,
               size := calculate_size net b.checkpoint
                 ((offset.toNat + data.length : Nat) : Int) } := by
  simp only [branch_write]
  have hcond : True ∧ offset ≠ get_offset net b.checkpoint b.size :=
    ⟨trivial, hne⟩
  rw [if_pos hcond]
  have hlen : ((padTo b.file offset.toNat ++ data).length : Int) =
      ((offset.toNat + data.length : Nat) : Int) := by
    simp [padTo_length]
  rw [hlen]

theorem swap_height_formula (net : BTGNet) (slf parent : BranchSt)
    (pid : Int) (flen : Nat)
    (hpid : slf.parent_id = some pid)
    (hflen : slf.file.length = flen)
    (hswap : branch_height parent - slf.checkpoint + 1 < slf.size)
    (hoff : get_offset net parent.checkpoint slf.checkpoint ≠
      get_offset net parent.checkpoint parent.size)
    (h0 : (0 : Int) ≠ get_offset net slf.checkpoint slf.size) :
    (swap_with_parent net slf parent).1.checkpoint = parent.checkpoint ∧
    (swap_with_parent net slf parent).1.size =
      calculate_size net parent.checkpoint
        (((get_offset net parent.checkpoint slf.checkpoint).toNat +
          flen : Nat) : Int) ∧
    (swap_with_parent net slf parent).2.checkpoint = slf.checkpoint ∧
    (swap_with_parent net slf parent).2.size =
      branch_height parent - slf.checkpoint + 1 := by
  simp only [swap_with_parent, hpid]
  rw [if_neg (not_le.mpr hswap)]
  rw [branch_write_trunc net slf _ 0 h0,
    branch_write_trunc net parent slf.file _ hoff]
  simp [hflen]

/-- C5 (code bug): evaluating `swap_with_parent` on a well-formed pair — a
parent branch at pre-fork checkpoint 1 with 3 headers, a child branch at
checkpoint 2 whose 2000 headers span the regtest BTG fork — the swap fires
(2 < 2000), but the object left in the parent position ends with
`height() = 2000` while the old child's height was 2001: `update_size`'s
`calculate_size` undercounts because the source subtracts the whole
`fork_byte_offset` instead of `fork_byte_offset - offset`.  The new child's
height does equal the old parent's height (3), so only the parent half of
the claimed height exchange fails. -/
theorem swap_with_parent_height_mismatch :
    branch_height (swap_with_parent regtest
        ⟨2, some 1, 2000, List.replicate 282072 7⟩
        ⟨1, some 0, 3, List.replicate 423 7⟩).1 = 2000 ∧
    branch_height (⟨2, some 1, 2000, List.replicate 282072 7⟩ : BranchSt) =
      2001 ∧
    branch_height (swap_with_parent regtest
        ⟨2, some 1, 2000, List.replicate 282072 7⟩
        ⟨1, some 0, 3, List.replicate 423 7⟩).2 = 3 ∧
    branch_height (⟨1, some 0, 3, List.replicate 423 7⟩ : BranchSt) = 3 := by
  have h := swap_height_formula regtest
    ⟨2, some 1, 2000, List.replicate 282072 7⟩
    ⟨1, some 0, 3, List.replicate 423 7⟩ 1 282072 rfl
    (List.length_replicate 282072 7) (by decide) (by decide) (by decide)
  obtain ⟨h1, h2, h3, h4⟩ := h
  refine ⟨?_, by decide, ?_, by decide⟩
  · rw [branch_height, h1, h2]
    simp only [List.length_replicate]
    decide
  · rw [branch_height, h3, h4]
    decide

/-- C7 (code bug): `calculate_size` fails to invert `get_offset` for a
pre-fork fork-branch checkpoint whose file spans the BTG fork: appending
2000 headers from height 1 on regtest (1999 legacy rows and one post-fork
row) and reading the byte count back yields 1999, not 2000 — the source
subtracts `fork_byte_offset` instead of `fork_byte_offset - offset` from
`size_in_bytes`.  For the root checkpoint 0 the two offsets coincide and the
same count round-trips. -/
theorem calculate_size_not_inverse :
    calculate_size regtest 1 (get_offset regtest 1 (1 + 2000)) = 1999 ∧
    calculate_size regtest 1 (get_offset regtest 1 (1 + 2000)) ≠ 2000 ∧
    calculate_size regtest 0 (get_offset regtest 0 (0 + 2001)) = 2001 := by
  decide

set_option maxRecDepth 8000 in
/-- C8 (code bug): `save_chunk` at a height below the checkpoint drops
`checkpoint - height` leading *bytes* from the chunk (`chunk[-delta:]` with
`delta` counted in headers), not the headers below the checkpoint: for a
branch at checkpoint 2 fed a 3-header legacy chunk (423 bytes) at height 0,
the bytes written are `chunk.drop 2` (421 bytes) where dropping the two
headers below the checkpoint would write `chunk.drop 282` (141 bytes). -/
theorem save_chunk_drops_bytes_not_headers :
    (save_chunk regtest ⟨2, none, 0, []⟩ ⟨0, none, 0, []⟩ 0 0
        (List.replicate 423 7)).1.file = (List.replicate 423 7).drop 2 ∧
    ((List.replicate 423 7).drop 2).length = 421 ∧
    ((List.replicate 423 7).drop 282).length = 141 ∧
    (save_chunk regtest ⟨2, none, 0, []⟩ ⟨0, none, 0, []⟩ 0 0
        (List.replicate 423 7)).1.file ≠ (List.replicate 423 7).drop 282 := by
  decide
